import Mathlib

/-!
# rss-aggregator: the feed polling and ingestion pipeline

A shallow embedding of `internal/rss/rss.go` (`FetchFeed`, `decodeHTML`) and of the
aggregation part of `internal/cli/handlers.go` (`HandlerAgg`, `scrapeFeeds`,
`processPost`).

Everything the Go code reaches outside the repository's own source is a field of `Env`:
the sqlc-generated `database.Queries` methods act on an abstract database state `σ`,
the standard-library parsers are pure functions, and the calls whose answer depends on
the outside world (`time.Now`, `uuid.New`, `http.Client.Do`) are functions of a call
counter kept in the `World`.  Every function of the embedding returns, next to its Go
result, the new world and the list of externally visible calls it made (`Event`).
-/

namespace RssAggregator

/-! ## Data model -/

/-- A Go `error` value.  The code inspects errors in two ways only: by identity with
`sql.ErrNoRows` and through the text of `err.Error()`. -/
inductive GoError where
  | sqlErrNoRows
  | other (msg : String)
  deriving DecidableEq, Repr

/-- The method `Error()` of a Go error. -/
def GoError.Error : GoError → String
  | .sqlErrNoRows => "sql: no rows in result set"
  | .other msg => msg

/-- The error built by `fmt.Errorf(pre + "%w", err)`; only its text is observed. -/
def wrapError (pre : String) (err : GoError) : GoError :=
  .other (pre ++ err.Error)

/-- The function `strings.Contains`.  Go strings are byte sequences; on valid UTF-8 text
containment of byte sequences and of code-point sequences agree. -/
def stringsContains (s substr : String) : Bool :=
  decide (substr.toList <:+: s.toList)

/-- A `uuid.UUID`, an opaque identifier. -/
abbrev UUID := Nat

/-- A `time.Time`, an opaque instant; `⟨0⟩` stands for the zero value `time.Time{}`. -/
structure GoTime where
  instant : Int
  deriving DecidableEq, Repr

/-- A `time.Duration`: a signed count of nanoseconds. -/
abbrev Duration := Int

/-- The type `sql.NullTime`. -/
structure NullTime where
  Time : GoTime
  Valid : Bool
  deriving DecidableEq, Repr

/-- The type `sql.NullString`. -/
structure NullString where
  String : String
  Valid : Bool
  deriving DecidableEq, Repr

/-- The type `rss.RSSItem`. -/
structure RSSItem where
  Title : String
  Link : String
  Description : String
  PubDate : String
  deriving DecidableEq, Repr

/-- The anonymous struct type of the field `RSSFeed.Channel`. -/
structure RSSChannel where
  Title : String
  Link : String
  Description : String
  Item : List RSSItem
  deriving DecidableEq, Repr

/-- The type `rss.RSSFeed`. -/
structure RSSFeed where
  Channel : RSSChannel
  deriving DecidableEq, Repr

/-- The fields of `database.Feed` that the aggregation code reads (the type itself is
generated code outside the source tree). -/
structure Feed where
  ID : UUID
  Name : String
  Url : String
  deriving DecidableEq, Repr

/-- The type `database.CreatePostParams`, with the fields of the composite literal in
`processPost`. -/
structure CreatePostParams where
  ID : UUID
  CreatedAt : GoTime
  UpdatedAt : GoTime
  Title : String
  Url : String
  Description : NullString
  PublishedAt : NullTime
  FeedID : UUID
  deriving DecidableEq, Repr

/-- The type `cli.Command`. -/
structure Command where
  Name : String
  Args : List String
  deriving DecidableEq, Repr

/-- The request `FetchFeed` builds: method, URL and the `User-Agent` header. -/
structure Request where
  Method : String
  URL : String
  UserAgent : String
  deriving DecidableEq, Repr

/-- What `FetchFeed` reads of an `http.Response`: the status code and the outcome of
`io.ReadAll(resp.Body)`. -/
structure Response where
  StatusCode : Int
  Body : Except GoError String

/-- The constant `http.StatusOK`. -/
def StatusOK : Int := 200

/-- The constant `time.RFC1123Z`. -/
def RFC1123Z : String := "Mon, 02 Jan 2006 15:04:05 -0700"

/-- The constant `time.RFC1123`. -/
def RFC1123 : String := "Mon, 02 Jan 2006 15:04:05 MST"

/-- The constant `time.RFC3339`. -/
def RFC3339 : String := "2006-01-02T15:04:05Z07:00"

/-! ## The environment -/

/-- The collaborators of the pipeline: the `database.Queries` methods on a database
state `σ`, and the library functions the code calls. -/
structure Env (σ : Type) where
  /-- The query `s.DB.GetNextFeedToFetch`. -/
  GetNextFeedToFetch : σ → Except GoError Feed × σ
  /-- The query `s.DB.MarkFeedFetched`. -/
  MarkFeedFetched : UUID → σ → Option GoError × σ
  /-- The query `s.DB.CreatePost`; the returned row is discarded by the caller, so only
  the error is kept. -/
  CreatePost : CreatePostParams → σ → Option GoError × σ
  /-- The answer of the n-th world call when it is `uuid.New()`. -/
  uuidNew : Nat → UUID
  /-- The answer of the n-th world call when it is `time.Now()`. -/
  timeNow : Nat → GoTime
  /-- The answer of the n-th world call when it is `client.Do(req)`. -/
  clientDo : Nat → Request → Except GoError Response
  /-- The error, if any, of `http.NewRequestWithContext(ctx, "GET", url, nil)`. -/
  newRequest : String → Option GoError
  /-- The function `time.Parse(layout, value)`. -/
  timeParse : String → String → Except GoError GoTime
  /-- The function `time.ParseDuration`. -/
  timeParseDuration : String → Except GoError Duration
  /-- The function `html.UnescapeString`. -/
  htmlUnescapeString : String → String
  /-- The function `xml.Unmarshal` into a zero-valued `RSSFeed`. -/
  xmlUnmarshal : String → Except GoError RSSFeed

/-- The state a run threads: the database and the number of world calls made. -/
structure World (σ : Type) where
  db : σ
  clock : Nat

/-- A line written to standard output, one constructor per `fmt.Printf`/`fmt.Println`
of the aggregation code, carrying the values that fill the format. -/
inductive LogLine where
  /-- Printed as `Collecting feeds every %v`. -/
  | collectingEvery (d : Duration)
  /-- Printed as `Press Ctrl+C to stop...`. -/
  | pressCtrlC
  /-- Printed as `No feeds to fetch`. -/
  | noFeeds
  /-- Printed as `Error getting next feed: %v`. -/
  | errorGettingNextFeed (err : GoError)
  /-- Printed as `Error marking feed as fetched: %v`. -/
  | errorMarkingFeed (err : GoError)
  /-- Printed as `Fetching feed: %s (%s)`. -/
  | fetchingFeed (name url : String)
  /-- Printed as `Error fetching RSS feed %s: %v`. -/
  | errorFetching (url : String) (err : GoError)
  /-- Printed as `Error processing post '%s': %v`. -/
  | errorProcessingPost (title : String) (err : GoError)
  /-- Printed as `Processed %d posts from %s`. -/
  | processed (count : Nat) (name : String)
  /-- Printed as `  Saved: %s`. -/
  | saved (title : String)
  deriving DecidableEq, Repr

/-- An externally visible call. -/
inductive Event where
  | getNextFeedToFetch
  | markFeedFetched (id : UUID)
  | createPost (arg : CreatePostParams)
  | clientDo (req : Request)
  | print (line : LogLine)
  | tickerWait
  deriving DecidableEq, Repr

/-! ## internal/rss/rss.go -/

/-- The function `decodeHTML`. -/
def decodeHTML {σ : Type} (env : Env σ) (feed : RSSFeed) : RSSFeed :=
  { Channel :=
      { Title := env.htmlUnescapeString feed.Channel.Title
        Link := feed.Channel.Link
        Description := env.htmlUnescapeString feed.Channel.Description
        Item := feed.Channel.Item.map fun it =>
          { it with
            Title := env.htmlUnescapeString it.Title
            Description := env.htmlUnescapeString it.Description } } }

/-- The function `FetchFeed`. -/
def FetchFeed {σ : Type} (env : Env σ) (feedURL : String) (w : World σ) :
    Except GoError RSSFeed × World σ × List Event :=
  match env.newRequest feedURL with
  | some err => (.error (wrapError "failed to create request: " err), w, [])
  | none =>
    let req : Request := { Method := "GET", URL := feedURL, UserAgent := "gator" }
    let w1 : World σ := { w with clock := w.clock + 1 }
    match env.clientDo w.clock req with
    | .error err => (.error (wrapError "failed to fetch feed: " err), w1, [.clientDo req])
    | .ok resp =>
      if resp.StatusCode ≠ StatusOK then
        (.error (.other ("unexpected status code: " ++ toString resp.StatusCode)), w1,
          [.clientDo req])
      else
        match resp.Body with
        | .error err =>
          (.error (wrapError "failed to read response body: " err), w1, [.clientDo req])
        | .ok body =>
          match env.xmlUnmarshal body with
          | .error err => (.error (wrapError "failed to parse XML: " err), w1, [.clientDo req])
          | .ok feed => (.ok (decodeHTML env feed), w1, [.clientDo req])

/-! ## internal/cli/handlers.go -/

/-- The slice `formats` of `processPost`. -/
def formats : List String :=
  [RFC1123Z, RFC1123, RFC3339, "Mon, 2 Jan 2006 15:04:05 MST"]

/-- The loop `for _, format := range formats` of `processPost`: the first layout that
parses sets `publishedAt` and breaks. -/
def parseFormats {σ : Type} (env : Env σ) (pubDate : String) :
    List String → NullTime → NullTime
  | [], publishedAt => publishedAt
  | format :: rest, publishedAt =>
    match env.timeParse format pubDate with
    | .ok parsed => { Time := parsed, Valid := true }
    | .error _ => parseFormats env pubDate rest publishedAt

/-- The block `// Parse published date` of `processPost`. -/
def parsePublishedAt {σ : Type} (env : Env σ) (pubDate : String) : NullTime :=
  let publishedAt : NullTime := { Time := ⟨0⟩, Valid := false }
  if pubDate ≠ "" then parseFormats env pubDate formats publishedAt else publishedAt

/-- The substring by which `processPost` recognises a duplicate URL. -/
def duplicateKeyMessage : String := "duplicate key value violates unique constraint"

/-- The composite literal `database.CreatePostParams{...}` of `processPost`, with
`time.Now()` evaluated first and `uuid.New()` second. -/
def newPostParams {σ : Type} (env : Env σ) (item : RSSItem) (feedID : UUID) (w : World σ) :
    CreatePostParams :=
  let publishedAt := parsePublishedAt env item.PubDate
  let now := env.timeNow w.clock
  { ID := env.uuidNew (w.clock + 1)
    CreatedAt := now
    UpdatedAt := now
    Title := item.Title
    Url := item.Link
    Description := { String := item.Description, Valid := item.Description ≠ "" }
    PublishedAt := publishedAt
    FeedID := feedID }

/-- The function `processPost`. -/
def processPost {σ : Type} (env : Env σ) (item : RSSItem) (feedID : UUID) (w : World σ) :
    Option GoError × World σ × List Event :=
  let arg := newPostParams env item feedID w
  let r := env.CreatePost arg w.db
  let w1 : World σ := { db := r.2, clock := w.clock + 2 }
  match r.1 with
  | some err =>
    if stringsContains err.Error duplicateKeyMessage then
      (none, w1, [.createPost arg])
    else
      (some err, w1, [.createPost arg])
  | none => (none, w1, [.createPost arg, .print (.saved item.Title)])

/-- The loop `for _, item := range rssFeed.Channel.Item` of `scrapeFeeds`. -/
def processItems {σ : Type} (env : Env σ) (feedID : UUID) :
    List RSSItem → World σ → World σ × List Event
  | [], w => (w, [])
  | item :: rest, w =>
    let r := processPost env item feedID w
    let logged : List Event :=
      match r.1 with
      | some err => [.print (.errorProcessingPost item.Title err)]
      | none => []
    let r2 := processItems env feedID rest r.2.1
    (r2.1, r.2.2 ++ logged ++ r2.2)

/-- The function `scrapeFeeds`. -/
def scrapeFeeds {σ : Type} (env : Env σ) (w : World σ) : World σ × List Event :=
  let r := env.GetNextFeedToFetch w.db
  let w1 : World σ := { w with db := r.2 }
  match r.1 with
  | .error err =>
    if err = GoError.sqlErrNoRows then
      (w1, [.getNextFeedToFetch, .print .noFeeds])
    else
      (w1, [.getNextFeedToFetch, .print (.errorGettingNextFeed err)])
  | .ok feed =>
    let m := env.MarkFeedFetched feed.ID w1.db
    let w2 : World σ := { w1 with db := m.2 }
    match m.1 with
    | some err =>
      (w2, [.getNextFeedToFetch, .markFeedFetched feed.ID, .print (.errorMarkingFeed err)])
    | none =>
      let f := FetchFeed env feed.Url w2
      let head : List Event :=
        [.getNextFeedToFetch, .markFeedFetched feed.ID,
          .print (.fetchingFeed feed.Name feed.Url)] ++ f.2.2
      match f.1 with
      | .error err => (f.2.1, head ++ [.print (.errorFetching feed.Url err)])
      | .ok rssFeed =>
        let p := processItems env feed.ID rssFeed.Channel.Item f.2.1
        (p.1, head ++ p.2 ++
          [.print (.processed rssFeed.Channel.Item.length feed.Name)])

/-- How a call of `HandlerAgg` stands after a bounded number of loop iterations. -/
inductive AggResult where
  /-- The handler returned this error. -/
  | returned (err : GoError)
  /-- The call `time.NewTicker` panicked (its interval was not positive). -/
  | panicked (msg : String)
  /-- The handler is still inside its `for` loop. -/
  | looping
  deriving DecidableEq, Repr

/-- The loop `for { scrapeFeeds(s); <-ticker.C }` of `HandlerAgg`, run for `fuel`
iterations. -/
def aggLoop {σ : Type} (env : Env σ) : Nat → World σ → World σ × List Event
  | 0, w => (w, [])
  | fuel + 1, w =>
    let r := scrapeFeeds env w
    let r2 := aggLoop env fuel r.1
    (r2.1, r.2 ++ [Event.tickerWait] ++ r2.2)

/-- The function `HandlerAgg`; `fuel` bounds the iterations of its endless loop. -/
def HandlerAgg {σ : Type} (env : Env σ) (cmd : Command) (fuel : Nat) (w : World σ) :
    AggResult × World σ × List Event :=
  match cmd.Args with
  | [] => (.returned (.other "time_between_reqs is required (e.g., 1s, 1m, 1h)"), w, [])
  | arg0 :: _ =>
    match env.timeParseDuration arg0 with
    | .error err => (.returned (wrapError "invalid duration format: " err), w, [])
    | .ok timeBetweenRequests =>
      let banner : List Event :=
        [.print (.collectingEvery timeBetweenRequests), .print .pressCtrlC]
      if timeBetweenRequests ≤ 0 then
        (.panicked "non-positive interval for NewTicker", w, banner)
      else
        let r := aggLoop env fuel w
        (.looping, r.1, banner ++ r.2)

/-! ## Observations on a run -/

/-- The arguments of the `CreatePost` calls of a trace, in order. -/
def insertsOf : List Event → List CreatePostParams
  | [] => []
  | .createPost arg :: rest => arg :: insertsOf rest
  | _ :: rest => insertsOf rest

/-- The feed IDs of the `MarkFeedFetched` calls of a trace, in order. -/
def stampsOf : List Event → List UUID
  | [] => []
  | .markFeedFetched id :: rest => id :: stampsOf rest
  | _ :: rest => stampsOf rest

/-- The requests of the `client.Do` calls of a trace, in order. -/
def fetchesOf : List Event → List Request
  | [] => []
  | .clientDo req :: rest => req :: fetchesOf rest
  | _ :: rest => fetchesOf rest

/-- The counts of the `Processed %d posts from %s` lines of a trace, in order. -/
def processedCounts : List Event → List Nat
  | [] => []
  | .print (.processed count _) :: rest => count :: processedCounts rest
  | _ :: rest => processedCounts rest

/-- The URLs of a list of post rows. -/
def urlsOf (rows : List CreatePostParams) : List String :=
  rows.map fun q => q.Url

/-- A database whose posts table, read through `rows`, enforces URL uniqueness: an
insert of a URL that is present fails with the unique-constraint error and leaves the
database unchanged, an insert of a new URL succeeds and appends the row, and the two
feed queries do not touch the posts. -/
structure UrlUniqueStore {σ : Type} (env : Env σ) (rows : σ → List CreatePostParams) :
    Prop where
  insert_present : ∀ arg db, arg.Url ∈ urlsOf (rows db) →
    (env.CreatePost arg db).2 = db ∧
      ∃ e, (env.CreatePost arg db).1 = some e ∧
        stringsContains e.Error duplicateKeyMessage = true
  insert_absent : ∀ arg db, arg.Url ∉ urlsOf (rows db) →
    (env.CreatePost arg db).1 = none ∧ rows (env.CreatePost arg db).2 = rows db ++ [arg]
  next_rows : ∀ db, rows (env.GetNextFeedToFetch db).2 = rows db
  mark_rows : ∀ id db, rows (env.MarkFeedFetched id db).2 = rows db

/-- What a step of a run does to a URL-unique posts table: uniqueness is kept, no URL
is lost, and every URL whose insert was attempted is stored afterwards. -/
def StoreGrows {σ : Type} (rows : σ → List CreatePostParams) (before after : σ)
    (tr : List Event) : Prop :=
  ((urlsOf (rows before)).Nodup → (urlsOf (rows after)).Nodup) ∧
  (∀ u ∈ urlsOf (rows before), u ∈ urlsOf (rows after)) ∧
  ∀ arg ∈ insertsOf tr, arg.Url ∈ urlsOf (rows after)

/-! ## A sample environment -/

/-- A posts table kept as the list of inserted rows with a unique index on the URL: an
insert whose URL is present is refused with the message of the PostgreSQL driver and
changes nothing. -/
def sampleCreatePost (arg : CreatePostParams) (rows : List CreatePostParams) :
    Option GoError × List CreatePostParams :=
  if arg.Url ∈ rows.map (fun q => q.Url) then
    (some (.other "pq: duplicate key value violates unique constraint posts_url_key"), rows)
  else
    (none, rows ++ [arg])

/-- The one feed of the sample environment. -/
def sampleFeed : Feed := { ID := 7, Name := "Example", Url := "https://example.com/rss" }

/-- The document the sample environment serves, before entity decoding. -/
def sampleRSS : RSSFeed :=
  { Channel :=
      { Title := "A &amp; B"
        Link := "https://example.com"
        Description := "news"
        Item :=
          [ { Title := "First", Link := "https://example.com/1", Description := "one",
              PubDate := "Mon, 02 Jan 2006 15:04:05 -0700" },
            { Title := "", Link := "https://example.com/2", Description := "",
              PubDate := "yesterday" } ] } }

/-- A sample environment: one feed, the URL-unique posts table above, a server that
answers every request with the given status and the sample document. -/
def sampleEnv (status : Int) : Env (List CreatePostParams) where
  GetNextFeedToFetch := fun db => (.ok sampleFeed, db)
  MarkFeedFetched := fun _ db => (none, db)
  CreatePost := sampleCreatePost
  uuidNew := fun n => 1000 + n
  timeNow := fun n => ⟨n⟩
  clientDo := fun _ _ => .ok { StatusCode := status, Body := .ok "<rss>...</rss>" }
  newRequest := fun _ => none
  timeParse := fun layout value =>
    if layout = RFC1123Z ∧ value = "Mon, 02 Jan 2006 15:04:05 -0700" then .ok ⟨1136239445⟩
    else .error (.other "cannot parse")
  timeParseDuration := fun s =>
    if s = "1m" then .ok 60000000000
    else if s = "0s" then .ok 0
    else .error (.other "time: invalid duration")
  htmlUnescapeString := fun s => if s = "A &amp; B" then "A & B" else s
  xmlUnmarshal := fun body =>
    if body = "<rss>...</rss>" then .ok sampleRSS else .error (.other "EOF")

/-- The empty sample world. -/
def sampleWorld : World (List CreatePostParams) := { db := [], clock := 0 }

/-- A posts table that refuses a present URL exactly as `sampleCreatePost` does, with the
unique-constraint message and no change, and whose insert of a new URL fails with a
connection error and stores nothing. -/
def refusingCreatePost (arg : CreatePostParams) (rows : List CreatePostParams) :
    Option GoError × List CreatePostParams :=
  if arg.Url ∈ rows.map (fun q => q.Url) then
    (some (.other "pq: duplicate key value violates unique constraint posts_url_key"), rows)
  else
    (some (.other "pq: connection refused"), rows)

/-- The sample environment with the posts table of `refusingCreatePost`. -/
def refusingEnv : Env (List CreatePostParams) :=
  { sampleEnv 200 with CreatePost := refusingCreatePost }

/-- The first item of the sample feed. -/
def sampleItem : RSSItem :=
  { Title := "First", Link := "https://example.com/1", Description := "one",
    PubDate := "Mon, 02 Jan 2006 15:04:05 -0700" }

end RssAggregator

/-! ## Theorems -/

namespace RssAggregator

/-! ### Helper lemmas -/

/-- Two strings that start with different characters are different, whatever follows. -/
theorem append_ne_append_of_head_ne (a b x y : String) (c d : Char)
    (ha : a.data.head? = some c) (hb : b.data.head? = some d) (hcd : c ≠ d) :
    a ++ x ≠ b ++ y := by
  intro h
  have h2 : (a ++ x).data = (b ++ y).data := by rw [h]
  rw [String.data_append, String.data_append] at h2
  cases ha2 : a.data with
  | nil => rw [ha2] at ha; simp at ha
  | cons p ps =>
    cases hb2 : b.data with
    | nil => rw [hb2] at hb; simp at hb
    | cons q qs =>
      rw [ha2] at ha h2
      rw [hb2] at hb h2
      simp at ha hb h2
      exact hcd (ha ▸ hb ▸ h2.1)

/-- The status error of `FetchFeed` is none of its wrapped errors. -/
theorem statusError_ne_wrapError (code : String) (pre : String) (err : GoError)
    (hpre : pre.data.head? = some 'f') :
    GoError.other ("unexpected status code: " ++ code) ≠ wrapError pre err := by
  intro h
  unfold wrapError at h
  injection h with h
  exact append_ne_append_of_head_ne "unexpected status code: " pre code err.Error 'u' 'f'
    rfl hpre (by decide) h

/-! ### C1: which errors `processPost` returns -/

/-- C1: `processPost` returns an error if and only if the insert `CreatePost` returned an
error whose text does not contain "duplicate key value violates unique constraint"; the
error returned is then exactly the storage error, and a storage error that does contain
the text (a duplicate URL) yields `nil`.  The insert in question is the one call
`CreatePost` that `processPost` issues, on the database it was given. -/
theorem processPost_error_iff {σ : Type} (env : Env σ) (item : RSSItem) (feedID : UUID)
    (w : World σ) :
    ((processPost env item feedID w).1 ≠ none ↔
        ∃ e, (env.CreatePost (newPostParams env item feedID w) w.db).1 = some e ∧
          stringsContains e.Error "duplicate key value violates unique constraint" = false) ∧
    (∀ e, (processPost env item feedID w).1 = some e →
        (env.CreatePost (newPostParams env item feedID w) w.db).1 = some e) ∧
    (∀ e, (env.CreatePost (newPostParams env item feedID w) w.db).1 = some e →
        stringsContains e.Error "duplicate key value violates unique constraint" = true →
        (processPost env item feedID w).1 = none) ∧
    ((processPost env item feedID w).2.2.filter (fun ev => ev matches .createPost _) =
        [.createPost (newPostParams env item feedID w)]) ∧
    (processPost env item feedID w).2.1.db =
      (env.CreatePost (newPostParams env item feedID w) w.db).2 := by
  unfold processPost
  cases hins : (env.CreatePost (newPostParams env item feedID w) w.db).1 with
  | none => simp [hins]
  | some err =>
    by_cases hdup : stringsContains err.Error duplicateKeyMessage = true
    · have hdup2 := hdup
      unfold duplicateKeyMessage at hdup2
      simp [hins, hdup, hdup2]
    · have hdup2 := hdup
      unfold duplicateKeyMessage at hdup2
      simp [hins, hdup, hdup2]

/-! ### C5: the published timestamp -/

/-- The format loop started on a value leaves it alone when no layout parses. -/
theorem parseFormats_all_fail {σ : Type} (env : Env σ) (s : String) (fs : List String)
    (acc : NullTime) (h : ∀ f ∈ fs, ∃ e, env.timeParse f s = .error e) :
    parseFormats env s fs acc = acc := by
  induction fs with
  | nil => rfl
  | cons f rest ih =>
    obtain ⟨e, he⟩ := h f (List.mem_cons_self _ _)
    simp only [parseFormats, he]
    exact ih fun g hg => h g (List.mem_cons_of_mem _ hg)

/-- The format loop returns the parse of the first layout that succeeds. -/
theorem parseFormats_first {σ : Type} (env : Env σ) (s : String) (pre : List String)
    (f : String) (post : List String) (t : GoTime) (acc : NullTime)
    (hpre : ∀ g ∈ pre, ∃ e, env.timeParse g s = .error e) (hf : env.timeParse f s = .ok t) :
    parseFormats env s (pre ++ f :: post) acc = { Time := t, Valid := true } := by
  induction pre with
  | nil => simp [parseFormats, hf]
  | cons g rest ih =>
    obtain ⟨e, he⟩ := hpre g (List.mem_cons_self _ _)
    simp only [List.cons_append, parseFormats, he]
    exact ih fun g hg => hpre g (List.mem_cons_of_mem _ hg)

/-- An error returned by `processPost` is the error of its insert. -/
theorem processPost_error_of_insert {σ : Type} (env : Env σ) (item : RSSItem)
    (feedID : UUID) (w : World σ) (e : GoError)
    (h : (processPost env item feedID w).1 = some e) :
    (env.CreatePost (newPostParams env item feedID w) w.db).1 = some e := by
  unfold processPost at h
  cases hins : (env.CreatePost (newPostParams env item feedID w) w.db).1 with
  | none => simp [hins] at h
  | some err =>
    by_cases hdup : stringsContains err.Error duplicateKeyMessage = true
    · simp [hins, hdup] at h
    · simp [hins, hdup] at h
      rw [h]

/-- The calls of `processPost`: the insert first, then at most console output. -/
theorem processPost_trace {σ : Type} (env : Env σ) (item : RSSItem) (feedID : UUID)
    (w : World σ) :
    ∃ tail, (processPost env item feedID w).2.2 =
        .createPost (newPostParams env item feedID w) :: tail ∧
      ∀ ev ∈ tail, ∃ l, ev = Event.print l := by
  unfold processPost
  cases hins : (env.CreatePost (newPostParams env item feedID w) w.db).1 with
  | none => exact ⟨[.print (.saved item.Title)], by simp [hins], by simp⟩
  | some err =>
    by_cases hdup : stringsContains err.Error duplicateKeyMessage = true
    · exact ⟨[], by simp [hins, hdup], by simp⟩
    · exact ⟨[], by simp [hins, hdup], by simp⟩

/-- C5: the `PublishedAt` of the post that `processPost` inserts.  The layouts are tried
in the order RFC1123Z, RFC1123, RFC3339, "Mon, 2 Jan 2006 15:04:05 MST"; for a non-empty
date string the first layout that parses gives the timestamp, marked valid; the value is
invalid (with the zero time) exactly when the string is empty or no layout parses it;
and an error of `processPost` is always the error of the insert, never one of date
handling. -/
theorem processPost_publishedAt {σ : Type} (env : Env σ) (item : RSSItem) (feedID : UUID)
    (w : World σ) :
    formats = ["Mon, 02 Jan 2006 15:04:05 -0700", "Mon, 02 Jan 2006 15:04:05 MST",
      "2006-01-02T15:04:05Z07:00", "Mon, 2 Jan 2006 15:04:05 MST"] ∧
    (∀ pre f post t, formats = pre ++ f :: post → item.PubDate ≠ "" →
        (∀ g ∈ pre, ∃ e, env.timeParse g item.PubDate = .error e) →
        env.timeParse f item.PubDate = .ok t →
        (newPostParams env item feedID w).PublishedAt = { Time := t, Valid := true }) ∧
    ((newPostParams env item feedID w).PublishedAt.Valid = false ↔
        item.PubDate = "" ∨ ∀ f ∈ formats, ∃ e, env.timeParse f item.PubDate = .error e) ∧
    ((newPostParams env item feedID w).PublishedAt.Valid = false →
        (newPostParams env item feedID w).PublishedAt = { Time := ⟨0⟩, Valid := false }) ∧
    (processPost env item feedID w).2.2.head? =
      some (.createPost (newPostParams env item feedID w)) ∧
    (∀ e, (processPost env item feedID w).1 = some e →
        (env.CreatePost (newPostParams env item feedID w) w.db).1 = some e) := by
  have hiff : (newPostParams env item feedID w).PublishedAt.Valid = false ↔
      item.PubDate = "" ∨ ∀ f ∈ formats, ∃ e, env.timeParse f item.PubDate = .error e := by
    by_cases hs : item.PubDate = ""
    · simp [newPostParams, parsePublishedAt, hs]
    · constructor
      · intro hv
        right
        intro f hf
        cases hp : env.timeParse f item.PubDate with
        | error e => exact ⟨e, rfl⟩
        | ok t =>
          obtain ⟨pre, post, hsplit⟩ := List.append_of_mem hf
          have hne : (parseFormats env item.PubDate formats ⟨⟨0⟩, false⟩).Valid = true := by
            clear hv
            rw [hsplit]
            clear hsplit hf
            induction pre with
            | nil => simp [parseFormats, hp]
            | cons g rest ih =>
              cases hg : env.timeParse g item.PubDate with
              | ok t2 => simp [parseFormats, hg]
              | error e2 => simpa [parseFormats, hg] using ih
          simp [newPostParams, parsePublishedAt, hs, hne] at hv
      · rintro (h | h)
        · exact absurd h hs
        · simp [newPostParams, parsePublishedAt, hs, parseFormats_all_fail env _ _ _ h]
  refine ⟨rfl, ?_, hiff, ?_, ?_, ?_⟩
  · intro pre f post t hsplit hs hpre hf
    simp only [newPostParams, parsePublishedAt, hs, ne_eq, not_false_eq_true, if_true]
    rw [hsplit]
    exact parseFormats_first env _ pre f post t _ hpre hf
  · intro hv
    rcases hiff.mp hv with h | h
    · simp [newPostParams, parsePublishedAt, h]
    · by_cases hs : item.PubDate = ""
      · simp [newPostParams, parsePublishedAt, hs]
      · simp [newPostParams, parsePublishedAt, hs, parseFormats_all_fail env _ _ _ h]
  · obtain ⟨tail, htail, _⟩ := processPost_trace env item feedID w
    rw [htail]
    rfl
  · exact processPost_error_of_insert env item feedID w

/-! ### C8: the status check of `FetchFeed` -/

/-- C8, as the code has it: for a response received without transport failure,
`FetchFeed` fails with the status error if and only if the status code is not 200
(`http.StatusOK`); for status 200 the outcome is that of reading and parsing the body. -/
theorem FetchFeed_status_error_iff {σ : Type} (env : Env σ) (feedURL : String)
    (w : World σ) (resp : Response) (hreq : env.newRequest feedURL = none)
    (hdo : env.clientDo w.clock { Method := "GET", URL := feedURL, UserAgent := "gator" } =
      .ok resp) :
    ((FetchFeed env feedURL w).1 =
        .error (.other ("unexpected status code: " ++ toString resp.StatusCode)) ↔
      resp.StatusCode ≠ 200) ∧
    (resp.StatusCode = 200 →
      (FetchFeed env feedURL w).1 =
        match resp.Body with
        | .error err => .error (wrapError "failed to read response body: " err)
        | .ok body =>
          match env.xmlUnmarshal body with
          | .error err => .error (wrapError "failed to parse XML: " err)
          | .ok feed => .ok (decodeHTML env feed)) := by
  by_cases hst : resp.StatusCode = 200
  · have hval : (FetchFeed env feedURL w).1 =
        match resp.Body with
        | .error err => .error (wrapError "failed to read response body: " err)
        | .ok body =>
          match env.xmlUnmarshal body with
          | .error err => .error (wrapError "failed to parse XML: " err)
          | .ok feed => .ok (decodeHTML env feed) := by
      simp only [FetchFeed, hreq, hdo, hst, StatusOK, ne_eq, not_true_eq_false, if_false]
      cases hb : resp.Body with
      | error err => simp
      | ok body =>
        cases hx : env.xmlUnmarshal body with
        | error err => simp [hx]
        | ok feed => simp [hx]
    refine ⟨?_, fun _ => hval⟩
    constructor
    · intro h
      exfalso
      rw [hval] at h
      cases hb : resp.Body with
      | error err =>
        simp only [hb] at h
        exact statusError_ne_wrapError _ "failed to read response body: " err rfl
          (Except.error.inj h).symm
      | ok body =>
        simp only [hb] at h
        cases hx : env.xmlUnmarshal body with
        | error err =>
          simp only [hx] at h
          exact statusError_ne_wrapError _ "failed to parse XML: " err rfl
            (Except.error.inj h).symm
        | ok feed =>
          simp only [hx] at h
          cases h
    · intro h
      exact absurd hst h
  · refine ⟨?_, fun h => absurd h hst⟩
    constructor
    · intro _
      exact hst
    · intro _
      simp [FetchFeed, hreq, hdo, hst, StatusOK]

/-- C8 witness: the sample server answering 503. -/
theorem FetchFeed_status_error_iff_witness :
    ((sampleEnv 503).newRequest "https://example.com/rss" = none ∧
      (sampleEnv 503).clientDo sampleWorld.clock
          { Method := "GET", URL := "https://example.com/rss", UserAgent := "gator" } =
        .ok { StatusCode := 503, Body := .ok "<rss>...</rss>" }) ∧
    ((FetchFeed (sampleEnv 503) "https://example.com/rss" sampleWorld).1 =
        .error (.other ("unexpected status code: " ++ toString (503 : Int))) ↔
      (503 : Int) ≠ 200) :=
  ⟨⟨rfl, rfl⟩,
    (FetchFeed_status_error_iff (sampleEnv 503) "https://example.com/rss" sampleWorld
      { StatusCode := 503, Body := .ok "<rss>...</rss>" } rfl rfl).1⟩

/-- C8 counterexample: status 204 is a 2xx status, the response arrives without
transport failure and with a readable body, and `FetchFeed` fails with the status error
instead of parsing the body. -/
theorem FetchFeed_rejects_204 :
    ((200 : Int) ≤ 204 ∧ (204 : Int) ≤ 299) ∧
    (sampleEnv 204).newRequest "https://example.com/rss" = none ∧
    (sampleEnv 204).clientDo sampleWorld.clock
        { Method := "GET", URL := "https://example.com/rss", UserAgent := "gator" } =
      .ok { StatusCode := 204, Body := .ok "<rss>...</rss>" } ∧
    (sampleEnv 204).xmlUnmarshal "<rss>...</rss>" = .ok sampleRSS ∧
    (FetchFeed (sampleEnv 204) "https://example.com/rss" sampleWorld).1 =
      .error (.other "unexpected status code: 204") :=
  ⟨by decide, rfl, rfl, rfl, rfl⟩

/-! ### C9: entity decoding -/

/-- C9: after `decodeHTML` the channel title and description and every item's title and
description are the unescaped originals; the channel link, the number and order of the
items and every item's link and raw publish date are unchanged.  `FetchFeed` returns a
feed only as the `decodeHTML` of what `xml.Unmarshal` produced. -/
theorem decodeHTML_fields {σ : Type} (env : Env σ) (feed : RSSFeed) :
    (decodeHTML env feed).Channel.Title = env.htmlUnescapeString feed.Channel.Title ∧
    (decodeHTML env feed).Channel.Description =
      env.htmlUnescapeString feed.Channel.Description ∧
    (decodeHTML env feed).Channel.Link = feed.Channel.Link ∧
    (decodeHTML env feed).Channel.Item.length = feed.Channel.Item.length ∧
    (∀ i : Nat, (decodeHTML env feed).Channel.Item[i]? =
      (feed.Channel.Item[i]?).map fun it =>
        { Title := env.htmlUnescapeString it.Title
          Link := it.Link
          Description := env.htmlUnescapeString it.Description
          PubDate := it.PubDate }) ∧
    (∀ (feedURL : String) (w : World σ) (out : RSSFeed),
      (FetchFeed env feedURL w).1 = .ok out →
        ∃ body raw, env.xmlUnmarshal body = .ok raw ∧ out = decodeHTML env raw) := by
  refine ⟨rfl, rfl, rfl, by simp [decodeHTML], ?_, ?_⟩
  · intro i
    simp [decodeHTML, List.getElem?_map]
  · intro feedURL w out h
    unfold FetchFeed at h
    cases hreq : env.newRequest feedURL with
    | some err => simp [hreq] at h
    | none =>
      cases hdo : env.clientDo w.clock
          { Method := "GET", URL := feedURL, UserAgent := "gator" } with
      | error err => simp [hreq, hdo] at h
      | ok resp =>
        by_cases hst : resp.StatusCode = StatusOK
        · cases hb : resp.Body with
          | error err => simp [hreq, hdo, hst, hb] at h
          | ok body =>
            cases hx : env.xmlUnmarshal body with
            | error err => simp [hreq, hdo, hst, hb, hx] at h
            | ok raw =>
              simp [hreq, hdo, hst, hb, hx] at h
              exact ⟨body, raw, hx, h.symm⟩
        · simp [hreq, hdo, hst] at h

/-! ### C10: a bad interval never starts the loop -/

/-- C10: when the argument list is empty or the duration parser rejects the first
argument, `HandlerAgg` returns an error with the world untouched and no call made: no
feed is selected, stamped or fetched and no post is inserted, whatever the number of
loop iterations allowed. -/
theorem HandlerAgg_bad_interval {σ : Type} (env : Env σ) (cmd : Command) (fuel : Nat)
    (w : World σ)
    (h : cmd.Args = [] ∨
      ∃ arg0 rest err, cmd.Args = arg0 :: rest ∧ env.timeParseDuration arg0 = .error err) :
    ∃ err, HandlerAgg env cmd fuel w = (.returned err, w, []) ∧
      (cmd.Args = [] → err = .other "time_between_reqs is required (e.g., 1s, 1m, 1h)") ∧
      (∀ arg0 rest e, cmd.Args = arg0 :: rest → env.timeParseDuration arg0 = .error e →
        err = .other ("invalid duration format: " ++ e.Error)) := by
  rcases h with h | ⟨arg0, rest, e, hargs, hparse⟩
  · refine ⟨_, by simp [HandlerAgg, h], fun _ => rfl, ?_⟩
    intro arg0 rest e hargs
    rw [h] at hargs
    cases hargs
  · refine ⟨wrapError "invalid duration format: " e, by simp only [HandlerAgg, hargs, hparse],
      ?_, ?_⟩
    · intro hnil
      rw [hnil] at hargs
      cases hargs
    · intro a r e2 ha hp
      rw [hargs] at ha
      injection ha with ha1 ha2
      subst ha1
      rw [hparse] at hp
      injection hp with hp
      subst hp
      rfl

/-- C10 witness: `agg soon` against the sample environment. -/
theorem HandlerAgg_bad_interval_witness :
    (sampleEnv 200).timeParseDuration "soon" = .error (.other "time: invalid duration") ∧
    ∃ err, HandlerAgg (sampleEnv 200) { Name := "agg", Args := ["soon"] } 3 sampleWorld =
        (.returned err, sampleWorld, []) ∧
      err = .other "invalid duration format: time: invalid duration" :=
  ⟨rfl,
    (HandlerAgg_bad_interval (sampleEnv 200) { Name := "agg", Args := ["soon"] } 3 sampleWorld
      (Or.inr ⟨"soon", [], .other "time: invalid duration", rfl, rfl⟩)).elim
      fun err herr => ⟨err, herr.1, herr.2.2 "soon" [] (.other "time: invalid duration") rfl rfl⟩⟩

/-! ### The calls of one poll cycle -/

theorem insertsOf_append (a b : List Event) : insertsOf (a ++ b) = insertsOf a ++ insertsOf b := by
  induction a with
  | nil => rfl
  | cons ev rest ih => cases ev <;> simp [insertsOf, ih]

theorem stampsOf_append (a b : List Event) : stampsOf (a ++ b) = stampsOf a ++ stampsOf b := by
  induction a with
  | nil => rfl
  | cons ev rest ih => cases ev <;> simp [stampsOf, ih]

theorem fetchesOf_append (a b : List Event) : fetchesOf (a ++ b) = fetchesOf a ++ fetchesOf b := by
  induction a with
  | nil => rfl
  | cons ev rest ih => cases ev <;> simp [fetchesOf, ih]

theorem processedCounts_append (a b : List Event) :
    processedCounts (a ++ b) = processedCounts a ++ processedCounts b := by
  induction a with
  | nil => rfl
  | cons ev rest ih =>
    cases ev with
    | print line => cases line <;> simp [processedCounts, ih]
    | _ => simp [processedCounts, ih]

theorem mem_insertsOf (tr : List Event) (arg : CreatePostParams) :
    arg ∈ insertsOf tr ↔ Event.createPost arg ∈ tr := by
  induction tr with
  | nil => simp [insertsOf]
  | cons ev rest ih => cases ev <;> simp [insertsOf, ih]

theorem mem_fetchesOf (tr : List Event) (req : Request) :
    req ∈ fetchesOf tr ↔ Event.clientDo req ∈ tr := by
  induction tr with
  | nil => simp [fetchesOf]
  | cons ev rest ih => cases ev <;> simp [fetchesOf, ih]

/-- The effects of `FetchFeed`: nothing at all, or one world call, the GET request for
the URL. -/
theorem FetchFeed_effects {σ : Type} (env : Env σ) (feedURL : String) (w : World σ) :
    (FetchFeed env feedURL w).2 = (w, []) ∨
      (FetchFeed env feedURL w).2 =
        ({ db := w.db, clock := w.clock + 1 },
          [.clientDo { Method := "GET", URL := feedURL, UserAgent := "gator" }]) := by
  cases hreq : env.newRequest feedURL with
  | some err => left; simp [FetchFeed, hreq]
  | none =>
    right
    cases hdo : env.clientDo w.clock
        { Method := "GET", URL := feedURL, UserAgent := "gator" } with
    | error err => simp [FetchFeed, hreq, hdo]
    | ok resp =>
      by_cases hst : resp.StatusCode = StatusOK
      · cases hb : resp.Body with
        | error err => simp [FetchFeed, hreq, hdo, hst, hb]
        | ok body =>
          cases hx : env.xmlUnmarshal body with
          | error err => simp [FetchFeed, hreq, hdo, hst, hb, hx]
          | ok raw => simp [FetchFeed, hreq, hdo, hst, hb, hx]
      · simp [FetchFeed, hreq, hdo, hst]

/-- The calls of `FetchFeed`: nothing, or the one GET request for the URL. -/
theorem FetchFeed_trace {σ : Type} (env : Env σ) (feedURL : String) (w : World σ) :
    (FetchFeed env feedURL w).2.2 = [] ∨
      (FetchFeed env feedURL w).2.2 =
        [.clientDo { Method := "GET", URL := feedURL, UserAgent := "gator" }] := by
  rcases FetchFeed_effects env feedURL w with h | h <;> rw [h] <;> simp

/-- The function `FetchFeed` does not touch the database. -/
theorem FetchFeed_db {σ : Type} (env : Env σ) (feedURL : String) (w : World σ) :
    (FetchFeed env feedURL w).2.1.db = w.db := by
  rcases FetchFeed_effects env feedURL w with h | h <;> rw [h]

/-- The observations of the calls of `FetchFeed`. -/
theorem FetchFeed_observations {σ : Type} (env : Env σ) (feedURL : String) (w : World σ) :
    insertsOf (FetchFeed env feedURL w).2.2 = [] ∧
    stampsOf (FetchFeed env feedURL w).2.2 = [] ∧
    processedCounts (FetchFeed env feedURL w).2.2 = [] ∧
    ∀ req ∈ fetchesOf (FetchFeed env feedURL w).2.2, req.URL = feedURL := by
  rcases FetchFeed_trace env feedURL w with h | h <;> rw [h] <;>
    simp [insertsOf, stampsOf, processedCounts, fetchesOf]

/-- The observations of the calls of `processPost`. -/
theorem processPost_observations {σ : Type} (env : Env σ) (item : RSSItem) (feedID : UUID)
    (w : World σ) :
    insertsOf (processPost env item feedID w).2.2 = [newPostParams env item feedID w] ∧
    stampsOf (processPost env item feedID w).2.2 = [] ∧
    fetchesOf (processPost env item feedID w).2.2 = [] ∧
    processedCounts (processPost env item feedID w).2.2 = [] := by
  unfold processPost
  cases hins : (env.CreatePost (newPostParams env item feedID w) w.db).1 with
  | none => simp [hins, insertsOf, stampsOf, fetchesOf, processedCounts]
  | some err =>
    by_cases hdup : stringsContains err.Error duplicateKeyMessage = true <;>
      simp [hins, hdup, insertsOf, stampsOf, fetchesOf, processedCounts]

/-- The observations of the calls of the item loop: one insert per item, in order, with
the item's link and title and the feed's ID. -/
theorem processItems_observations {σ : Type} (env : Env σ) (feedID : UUID)
    (items : List RSSItem) (w : World σ) :
    (insertsOf (processItems env feedID items w).2).map
        (fun p => (p.Url, p.Title, p.FeedID)) =
      items.map (fun it => (it.Link, it.Title, feedID)) ∧
    stampsOf (processItems env feedID items w).2 = [] ∧
    fetchesOf (processItems env feedID items w).2 = [] ∧
    processedCounts (processItems env feedID items w).2 = [] := by
  induction items generalizing w with
  | nil => simp [processItems, insertsOf, stampsOf, fetchesOf, processedCounts]
  | cons item rest ih =>
    obtain ⟨h1, h2, h3, h4⟩ := processPost_observations env item feedID w
    obtain ⟨i1, i2, i3, i4⟩ := ih (processPost env item feedID w).2.1
    have hlog : ∀ (o : Option GoError),
        insertsOf (match o with
          | some err => [Event.print (.errorProcessingPost item.Title err)]
          | none => []) = [] ∧
        stampsOf (match o with
          | some err => [Event.print (.errorProcessingPost item.Title err)]
          | none => []) = [] ∧
        fetchesOf (match o with
          | some err => [Event.print (.errorProcessingPost item.Title err)]
          | none => []) = [] ∧
        processedCounts (match o with
          | some err => [Event.print (.errorProcessingPost item.Title err)]
          | none => []) = [] := by
      intro o
      cases o <;> simp [insertsOf, stampsOf, fetchesOf, processedCounts]
    obtain ⟨l1, l2, l3, l4⟩ := hlog (processPost env item feedID w).1
    simp only [processItems, insertsOf_append, stampsOf_append, fetchesOf_append,
      processedCounts_append, h1, h2, h3, h4, l1, l2, l3, l4, i2, i3, i4, List.append_nil,
      List.map_append, i1, List.map_cons, List.nil_append, and_self, and_true]
    simp [newPostParams]

/-- The cycle once a feed is selected and stamped: fetch, then the item loop. -/
theorem scrapeFeeds_selected {σ : Type} (env : Env σ) (w : World σ) (feed : Feed)
    (d1 d2 : σ) (hsel : env.GetNextFeedToFetch w.db = (.ok feed, d1))
    (hmark : env.MarkFeedFetched feed.ID d1 = (none, d2)) :
    scrapeFeeds env w =
      match (FetchFeed env feed.Url { db := d2, clock := w.clock }).1 with
      | .error err =>
        ((FetchFeed env feed.Url { db := d2, clock := w.clock }).2.1,
          [.getNextFeedToFetch, .markFeedFetched feed.ID,
            .print (.fetchingFeed feed.Name feed.Url)] ++
          (FetchFeed env feed.Url { db := d2, clock := w.clock }).2.2 ++
          [.print (.errorFetching feed.Url err)])
      | .ok rssFeed =>
        ((processItems env feed.ID rssFeed.Channel.Item
            (FetchFeed env feed.Url { db := d2, clock := w.clock }).2.1).1,
          [.getNextFeedToFetch, .markFeedFetched feed.ID,
            .print (.fetchingFeed feed.Name feed.Url)] ++
          (FetchFeed env feed.Url { db := d2, clock := w.clock }).2.2 ++
          (processItems env feed.ID rssFeed.Channel.Item
            (FetchFeed env feed.Url { db := d2, clock := w.clock }).2.1).2 ++
          [.print (.processed rssFeed.Channel.Item.length feed.Name)]) := by
  simp only [scrapeFeeds, hsel, hmark]

/-- The inserts of a cycle that fetched a feed: one per item, in order. -/
theorem scrapeFeeds_inserts {σ : Type} (env : Env σ) (w : World σ)
    (feed : Feed) (d1 d2 : σ) (rssFeed : RSSFeed)
    (hsel : env.GetNextFeedToFetch w.db = (.ok feed, d1))
    (hmark : env.MarkFeedFetched feed.ID d1 = (none, d2))
    (hfetch : (FetchFeed env feed.Url { db := d2, clock := w.clock }).1 = .ok rssFeed) :
    (insertsOf (scrapeFeeds env w).2).map (fun p => (p.Url, p.Title, p.FeedID)) =
      rssFeed.Channel.Item.map (fun it => (it.Link, it.Title, feed.ID)) := by
  rw [scrapeFeeds_selected env w feed d1 d2 hsel hmark, hfetch]
  obtain ⟨f1, _, _, _⟩ := FetchFeed_observations env feed.Url { db := d2, clock := w.clock }
  obtain ⟨p1, _, _, _⟩ := processItems_observations env feed.ID rssFeed.Channel.Item
    (FetchFeed env feed.Url { db := d2, clock := w.clock }).2.1
  simp only [insertsOf_append, f1, List.append_nil, List.nil_append]
  simpa [insertsOf] using p1

/-! ### C3: one insert per item, in feed order -/

/-- C7: in a cycle whose feed was selected and stamped and whose fetch failed, the calls
of `scrapeFeeds` are the selection, the stamp, the console line, the calls of the fetch
and the error line: the only stamp is the selected feed's, no insert is attempted, the
database is left exactly as the stamp left it, and the loop of `HandlerAgg` goes on to
wait for the next tick (`scrapeFeeds` has no error to return). -/
theorem scrapeFeeds_fetch_error {σ : Type} (env : Env σ) (w : World σ) (feed : Feed)
    (d1 d2 : σ) (err : GoError)
    (hsel : env.GetNextFeedToFetch w.db = (.ok feed, d1))
    (hmark : env.MarkFeedFetched feed.ID d1 = (none, d2))
    (hfetch : (FetchFeed env feed.Url { db := d2, clock := w.clock }).1 = .error err) :
    (scrapeFeeds env w).2 =
      [.getNextFeedToFetch, .markFeedFetched feed.ID,
        .print (.fetchingFeed feed.Name feed.Url)] ++
      (FetchFeed env feed.Url { db := d2, clock := w.clock }).2.2 ++
      [.print (.errorFetching feed.Url err)] ∧
    stampsOf (scrapeFeeds env w).2 = [feed.ID] ∧
    insertsOf (scrapeFeeds env w).2 = [] ∧
    (scrapeFeeds env w).1.db = d2 ∧
    ∀ fuel, (aggLoop env (fuel + 1) w).2 =
      (scrapeFeeds env w).2 ++ [.tickerWait] ++ (aggLoop env fuel (scrapeFeeds env w).1).2 := by
  obtain ⟨f1, f2, _, _⟩ := FetchFeed_observations env feed.Url { db := d2, clock := w.clock }
  have hdb := FetchFeed_db env feed.Url { db := d2, clock := w.clock }
  refine ⟨?_, ?_, ?_, ?_, fun fuel => rfl⟩
  · rw [scrapeFeeds_selected env w feed d1 d2 hsel hmark, hfetch]
  · rw [scrapeFeeds_selected env w feed d1 d2 hsel hmark, hfetch]
    simp [stampsOf_append, stampsOf, f2]
  · rw [scrapeFeeds_selected env w feed d1 d2 hsel hmark, hfetch]
    simp [insertsOf_append, insertsOf, f1]
  · rw [scrapeFeeds_selected env w feed d1 d2 hsel hmark, hfetch]
    exact hdb

/-- C7 witness: the sample server answering 204, which `FetchFeed` rejects. -/
theorem scrapeFeeds_fetch_error_witness :
    ((sampleEnv 204).GetNextFeedToFetch sampleWorld.db = (.ok sampleFeed, []) ∧
      (sampleEnv 204).MarkFeedFetched sampleFeed.ID [] = (none, []) ∧
      (FetchFeed (sampleEnv 204) sampleFeed.Url { db := [], clock := sampleWorld.clock }).1 =
        .error (.other "unexpected status code: 204")) ∧
    stampsOf (scrapeFeeds (sampleEnv 204) sampleWorld).2 = [7] ∧
    insertsOf (scrapeFeeds (sampleEnv 204) sampleWorld).2 = [] ∧
    (scrapeFeeds (sampleEnv 204) sampleWorld).1.db = [] :=
  ⟨⟨rfl, rfl, rfl⟩,
    (scrapeFeeds_fetch_error (sampleEnv 204) sampleWorld sampleFeed [] []
      (.other "unexpected status code: 204") rfl rfl rfl).2.1,
    (scrapeFeeds_fetch_error (sampleEnv 204) sampleWorld sampleFeed [] []
      (.other "unexpected status code: 204") rfl rfl rfl).2.2.1,
    (scrapeFeeds_fetch_error (sampleEnv 204) sampleWorld sampleFeed [] []
      (.other "unexpected status code: 204") rfl rfl rfl).2.2.2.1⟩

/-! ### The posts table under URL uniqueness -/

/-- An ingestion against a URL-unique store: a stored URL gives `nil` and an unchanged
database, a new URL gives `nil` and one appended row. -/
theorem processPost_store {σ : Type} (env : Env σ) (rows : σ → List CreatePostParams)
    (hstore : UrlUniqueStore env rows) (item : RSSItem) (feedID : UUID) (w : World σ) :
    (item.Link ∈ urlsOf (rows w.db) →
      (processPost env item feedID w).1 = none ∧
        (processPost env item feedID w).2.1.db = w.db) ∧
    (item.Link ∉ urlsOf (rows w.db) →
      (processPost env item feedID w).1 = none ∧
        rows (processPost env item feedID w).2.1.db =
          rows w.db ++ [newPostParams env item feedID w]) := by
  constructor
  · intro hin
    obtain ⟨hdb, e, he, hdup⟩ :=
      hstore.insert_present (newPostParams env item feedID w) w.db hin
    simp [processPost, he, hdup, hdb]
  · intro hout
    obtain ⟨hnone, hrows⟩ :=
      hstore.insert_absent (newPostParams env item feedID w) w.db hout
    simp [processPost, hnone, hrows]

theorem StoreGrows.trans {σ : Type} {rows : σ → List CreatePostParams} {a b c : σ}
    {t1 t2 : List Event} (h1 : StoreGrows rows a b t1) (h2 : StoreGrows rows b c t2) :
    StoreGrows rows a c (t1 ++ t2) := by
  refine ⟨fun h => h2.1 (h1.1 h), fun u hu => h2.2.1 u (h1.2.1 u hu), ?_⟩
  intro arg harg
  rw [insertsOf_append, List.mem_append] at harg
  rcases harg with h | h
  · exact h2.2.1 _ (h1.2.2 arg h)
  · exact h2.2.2 arg h

theorem StoreGrows.of_rows_eq {σ : Type} {rows : σ → List CreatePostParams} {a b : σ}
    {tr : List Event} (h : rows b = rows a) (htr : insertsOf tr = []) :
    StoreGrows rows a b tr := by
  refine ⟨fun hn => by rw [h]; exact hn, fun u hu => by rw [h]; exact hu, ?_⟩
  intro arg harg
  rw [htr] at harg
  cases harg

theorem processPost_grows {σ : Type} (env : Env σ) (rows : σ → List CreatePostParams)
    (hstore : UrlUniqueStore env rows) (item : RSSItem) (feedID : UUID) (w : World σ) :
    StoreGrows rows w.db (processPost env item feedID w).2.1.db
      (processPost env item feedID w).2.2 := by
  obtain ⟨hin, hout⟩ := processPost_store env rows hstore item feedID w
  obtain ⟨hobs, _⟩ := processPost_observations env item feedID w
  have hurl : (newPostParams env item feedID w).Url = item.Link := rfl
  by_cases hmem : item.Link ∈ urlsOf (rows w.db)
  · obtain ⟨_, hdb⟩ := hin hmem
    rw [hdb]
    unfold StoreGrows
    rw [hobs]
    refine ⟨id, fun u hu => hu, ?_⟩
    intro arg harg
    simp only [List.mem_singleton] at harg
    rw [harg, hurl]
    exact hmem
  · obtain ⟨_, hrows⟩ := hout hmem
    unfold StoreGrows
    rw [hobs]
    refine ⟨?_, ?_, ?_⟩
    · intro hn
      rw [hrows]
      simp only [urlsOf, List.map_append, List.map_cons, List.map_nil] at hmem ⊢
      rw [List.nodup_append]
      refine ⟨hn, List.nodup_singleton _, ?_⟩
      intro a ha hb
      simp only [List.mem_singleton] at hb
      rw [hb, hurl] at ha
      exact hmem ha
    · intro u hu
      rw [hrows]
      simp only [urlsOf, List.map_append, List.mem_append] at hu ⊢
      exact Or.inl hu
    · intro arg harg
      simp only [List.mem_singleton] at harg
      rw [harg, hrows]
      simp [urlsOf]

theorem processItems_grows {σ : Type} (env : Env σ) (rows : σ → List CreatePostParams)
    (hstore : UrlUniqueStore env rows) (feedID : UUID) (items : List RSSItem)
    (w : World σ) :
    StoreGrows rows w.db (processItems env feedID items w).1.db
      (processItems env feedID items w).2 := by
  induction items generalizing w with
  | nil => exact StoreGrows.of_rows_eq rfl rfl
  | cons item rest ih =>
    have h1 := processPost_grows env rows hstore item feedID w
    have h2 := ih (processPost env item feedID w).2.1
    have hlog : StoreGrows rows (processPost env item feedID w).2.1.db
        (processPost env item feedID w).2.1.db
        (match (processPost env item feedID w).1 with
          | some err => [Event.print (.errorProcessingPost item.Title err)]
          | none => []) := by
      apply StoreGrows.of_rows_eq rfl
      cases (processPost env item feedID w).1 <;> rfl
    simpa [processItems] using (h1.trans hlog).trans h2

theorem scrapeFeeds_grows {σ : Type} (env : Env σ) (rows : σ → List CreatePostParams)
    (hstore : UrlUniqueStore env rows) (w : World σ) :
    StoreGrows rows w.db (scrapeFeeds env w).1.db (scrapeFeeds env w).2 := by
  cases hsel : (env.GetNextFeedToFetch w.db).1 with
  | error err =>
    apply StoreGrows.of_rows_eq
    · by_cases he : err = GoError.sqlErrNoRows <;>
        simp [scrapeFeeds, hsel, he, hstore.next_rows]
    · by_cases he : err = GoError.sqlErrNoRows <;> simp [scrapeFeeds, hsel, he, insertsOf]
  | ok feed =>
    cases hm : (env.MarkFeedFetched feed.ID (env.GetNextFeedToFetch w.db).2).1 with
    | some err =>
      apply StoreGrows.of_rows_eq
      · simp [scrapeFeeds, hsel, hm, hstore.next_rows, hstore.mark_rows]
      · simp [scrapeFeeds, hsel, hm, insertsOf]
    | none =>
      have hsel2 : env.GetNextFeedToFetch w.db =
          (.ok feed, (env.GetNextFeedToFetch w.db).2) := by
        rw [← hsel]
      have hmark2 : env.MarkFeedFetched feed.ID (env.GetNextFeedToFetch w.db).2 =
          (none, (env.MarkFeedFetched feed.ID (env.GetNextFeedToFetch w.db).2).2) := by
        rw [← hm]
      have hrows : rows (env.MarkFeedFetched feed.ID (env.GetNextFeedToFetch w.db).2).2 =
          rows w.db := by
        rw [hstore.mark_rows, hstore.next_rows]
      obtain ⟨f1, _, _, _⟩ := FetchFeed_observations env feed.Url
        { db := (env.MarkFeedFetched feed.ID (env.GetNextFeedToFetch w.db).2).2,
          clock := w.clock }
      have hdb := FetchFeed_db env feed.Url
        { db := (env.MarkFeedFetched feed.ID (env.GetNextFeedToFetch w.db).2).2,
          clock := w.clock }
      rw [scrapeFeeds_selected env w feed _ _ hsel2 hmark2]
      cases hf : (FetchFeed env feed.Url
          { db := (env.MarkFeedFetched feed.ID (env.GetNextFeedToFetch w.db).2).2,
            clock := w.clock }).1 with
      | error err =>
        apply StoreGrows.of_rows_eq
        · simp only [hdb, hrows]
        · simp [insertsOf_append, insertsOf, f1]
      | ok rssFeed =>
        have hhead : StoreGrows rows w.db
            (FetchFeed env feed.Url
              { db := (env.MarkFeedFetched feed.ID (env.GetNextFeedToFetch w.db).2).2,
                clock := w.clock }).2.1.db
            ([.getNextFeedToFetch, .markFeedFetched feed.ID,
                .print (.fetchingFeed feed.Name feed.Url)] ++
              (FetchFeed env feed.Url
                { db := (env.MarkFeedFetched feed.ID (env.GetNextFeedToFetch w.db).2).2,
                  clock := w.clock }).2.2) := by
          apply StoreGrows.of_rows_eq
          · rw [hdb, hrows]
          · simp [insertsOf_append, insertsOf, f1]
        have hitems := processItems_grows env rows hstore feed.ID rssFeed.Channel.Item
          (FetchFeed env feed.Url
            { db := (env.MarkFeedFetched feed.ID (env.GetNextFeedToFetch w.db).2).2,
              clock := w.clock }).2.1
        have htail : StoreGrows rows
            (processItems env feed.ID rssFeed.Channel.Item
              (FetchFeed env feed.Url
                { db := (env.MarkFeedFetched feed.ID (env.GetNextFeedToFetch w.db).2).2,
                  clock := w.clock }).2.1).1.db
            (processItems env feed.ID rssFeed.Channel.Item
              (FetchFeed env feed.Url
                { db := (env.MarkFeedFetched feed.ID (env.GetNextFeedToFetch w.db).2).2,
                  clock := w.clock }).2.1).1.db
            [.print (.processed rssFeed.Channel.Item.length feed.Name)] :=
          StoreGrows.of_rows_eq rfl rfl
        exact (hhead.trans hitems).trans htail

theorem aggLoop_grows {σ : Type} (env : Env σ) (rows : σ → List CreatePostParams)
    (hstore : UrlUniqueStore env rows) (fuel : Nat) (w : World σ) :
    StoreGrows rows w.db (aggLoop env fuel w).1.db (aggLoop env fuel w).2 := by
  induction fuel generalizing w with
  | zero => exact StoreGrows.of_rows_eq rfl rfl
  | succ n ih =>
    have h1 := scrapeFeeds_grows env rows hstore w
    have htick : StoreGrows rows (scrapeFeeds env w).1.db (scrapeFeeds env w).1.db
        [Event.tickerWait] := StoreGrows.of_rows_eq rfl rfl
    exact (h1.trans htick).trans (ih (scrapeFeeds env w).1)

/-- The item loop on items whose URLs are all new and pairwise distinct appends exactly
the rows of its inserts. -/
theorem processItems_all_new {σ : Type} (env : Env σ) (rows : σ → List CreatePostParams)
    (hstore : UrlUniqueStore env rows) (feedID : UUID) (items : List RSSItem)
    (w : World σ) (hdistinct : (items.map fun it => it.Link).Nodup)
    (hfresh : ∀ it ∈ items, it.Link ∉ urlsOf (rows w.db)) :
    rows (processItems env feedID items w).1.db =
      rows w.db ++ insertsOf (processItems env feedID items w).2 := by
  induction items generalizing w with
  | nil => simp [processItems, insertsOf]
  | cons item rest ih =>
    obtain ⟨_, hrows⟩ := (processPost_store env rows hstore item feedID w).2
      (hfresh item (List.mem_cons_self _ _))
    obtain ⟨hobs, _⟩ := processPost_observations env item feedID w
    simp only [List.map_cons, List.nodup_cons] at hdistinct
    have hfresh2 : ∀ it ∈ rest, it.Link ∉ urlsOf (rows (processPost env item feedID w).2.1.db) := by
      intro it hit hmem
      rw [hrows] at hmem
      simp only [urlsOf, List.map_append, List.map_cons, List.map_nil, List.mem_append,
        List.mem_singleton] at hmem
      rcases hmem with h | h
      · exact hfresh it (List.mem_cons_of_mem _ hit) h
      · apply hdistinct.1
        have hurl : (newPostParams env item feedID w).Url = item.Link := rfl
        rw [hurl] at h
        rw [← h]
        exact List.mem_map_of_mem (fun it => it.Link) hit
    have h2 := ih (processPost env item feedID w).2.1 hdistinct.2 hfresh2
    have hlog : insertsOf (match (processPost env item feedID w).1 with
        | some err => [Event.print (.errorProcessingPost item.Title err)]
        | none => []) = [] := by
      cases (processPost env item feedID w).1 <;> rfl
    simp only [processItems, insertsOf_append, hobs, hlog, h2, hrows, List.append_nil,
      List.append_assoc, List.nil_append]

/-- The item loop on items whose URLs are all stored leaves the database unchanged. -/
theorem processItems_all_present {σ : Type} (env : Env σ)
    (rows : σ → List CreatePostParams) (hstore : UrlUniqueStore env rows) (feedID : UUID)
    (items : List RSSItem) (w : World σ)
    (hpresent : ∀ it ∈ items, it.Link ∈ urlsOf (rows w.db)) :
    (processItems env feedID items w).1.db = w.db := by
  induction items generalizing w with
  | nil => rfl
  | cons item rest ih =>
    obtain ⟨_, hdb⟩ := (processPost_store env rows hstore item feedID w).1
      (hpresent item (List.mem_cons_self _ _))
    have h2 := ih (processPost env item feedID w).2.1 (by
      intro it hit
      rw [hdb]
      exact hpresent it (List.mem_cons_of_mem _ hit))
    simp only [processItems, h2, hdb]

/-- The sample environment is a URL-unique store, its rows being the database itself. -/
theorem sampleEnv_urlUnique (status : Int) : UrlUniqueStore (sampleEnv status) id := by
  refine ⟨?_, ?_, fun _ => rfl, fun _ _ => rfl⟩
  · intro arg db hin
    have hin2 : arg.Url ∈ List.map (fun q => q.Url) db := hin
    refine ⟨by simp [sampleEnv, sampleCreatePost, hin2], _, by
      simp [sampleEnv, sampleCreatePost, hin2]; rfl, by decide⟩
  · intro arg db hout
    have hout2 : arg.Url ∉ List.map (fun q => q.Url) db := hout
    simp [sampleEnv, sampleCreatePost, hout2]

/-! ### C2: one post per URL -/

/-- C2, with the conditions on the store that it needs: against a store that is
URL-unique in the sense of `UrlUniqueStore` (an insert of a present URL fails with the
unique-constraint error and leaves the database unchanged; an insert of a new URL is
accepted and appends that row; the two feed queries leave the posts alone), (1) an
ingestion of an item whose link is already stored, under any feed ID, returns `nil` and
leaves the database unchanged; (2) after any ingestion into a store without duplicate
URLs the store has no duplicate URLs and exactly one post with the item's link; (3) after
any number of poll cycles started on a store without duplicate URLs, the store has no
duplicate URLs and exactly one post with the URL of every insert that was attempted in
those cycles. -/
theorem ingest_same_url_once {σ : Type} (env : Env σ) (rows : σ → List CreatePostParams)
    (hstore : UrlUniqueStore env rows) :
    (∀ (item : RSSItem) (feedID : UUID) (w : World σ), item.Link ∈ urlsOf (rows w.db) →
      (processPost env item feedID w).1 = none ∧
        (processPost env item feedID w).2.1.db = w.db) ∧
    (∀ (item : RSSItem) (feedID : UUID) (w : World σ), (urlsOf (rows w.db)).Nodup →
      (urlsOf (rows (processPost env item feedID w).2.1.db)).Nodup ∧
        (urlsOf (rows (processPost env item feedID w).2.1.db)).count item.Link = 1) ∧
    (∀ (fuel : Nat) (w : World σ), (urlsOf (rows w.db)).Nodup →
      (urlsOf (rows (aggLoop env fuel w).1.db)).Nodup ∧
        ∀ arg, Event.createPost arg ∈ (aggLoop env fuel w).2 →
          (urlsOf (rows (aggLoop env fuel w).1.db)).count arg.Url = 1) := by
  refine ⟨fun item feedID w => (processPost_store env rows hstore item feedID w).1, ?_, ?_⟩
  · intro item feedID w hn
    obtain ⟨g1, _, g3⟩ := processPost_grows env rows hstore item feedID w
    obtain ⟨hobs, _⟩ := processPost_observations env item feedID w
    refine ⟨g1 hn, List.count_eq_one_of_mem (g1 hn) ?_⟩
    have := g3 (newPostParams env item feedID w) (by rw [hobs]; exact List.mem_singleton_self _)
    exact this
  · intro fuel w hn
    obtain ⟨g1, _, g3⟩ := aggLoop_grows env rows hstore fuel w
    refine ⟨g1 hn, fun arg harg => List.count_eq_one_of_mem (g1 hn) ?_⟩
    exact g3 arg ((mem_insertsOf _ _).mpr harg)

/-- C2 witness: two poll cycles of the sample environment, which fetch the same two
items twice, leave one post with the first item's URL. -/
theorem ingest_same_url_once_witness :
    UrlUniqueStore (sampleEnv 200) id ∧
    (insertsOf (aggLoop (sampleEnv 200) 2 sampleWorld).2).map (fun p => p.Url) =
      ["https://example.com/1", "https://example.com/2", "https://example.com/1",
        "https://example.com/2"] ∧
    (urlsOf (aggLoop (sampleEnv 200) 2 sampleWorld).1.db).count "https://example.com/1" = 1 :=
  ⟨sampleEnv_urlUnique 200, by decide,
    ((ingest_same_url_once (sampleEnv 200) id (sampleEnv_urlUnique 200)).2.2 2 sampleWorld
      (by decide)).2
      { ID := 1002, CreatedAt := ⟨1⟩, UpdatedAt := ⟨1⟩, Title := "First",
        Url := "https://example.com/1", Description := { String := "one", Valid := true },
        PublishedAt := { Time := ⟨1136239445⟩, Valid := true }, FeedID := 7 }
      (by decide)⟩

/-- C2 counterexample: `refusingEnv` enforces URL uniqueness as the claim words it (an
insert of a present URL fails with the unique-constraint error and leaves the store
unchanged), yet its insert of a new URL fails with a connection error; the first
ingestion of the sample item returns that error, and after it, and after three poll
cycles that attempt the insert of its URL three times, no post with that URL is stored. -/
theorem ingest_refused_stores_nothing :
    (∀ (arg : CreatePostParams) (db : List CreatePostParams), arg.Url ∈ urlsOf db →
      refusingEnv.CreatePost arg db =
          (some (.other "pq: duplicate key value violates unique constraint posts_url_key"),
            db) ∧
        stringsContains "pq: duplicate key value violates unique constraint posts_url_key"
          "duplicate key value violates unique constraint" = true) ∧
    (processPost refusingEnv sampleItem 7 sampleWorld).1 =
      some (.other "pq: connection refused") ∧
    (urlsOf (processPost refusingEnv sampleItem 7 sampleWorld).2.1.db).count
      "https://example.com/1" = 0 ∧
    ((insertsOf (aggLoop refusingEnv 3 sampleWorld).2).map fun p => p.Url).count
      "https://example.com/1" = 3 ∧
    (urlsOf (aggLoop refusingEnv 3 sampleWorld).1.db).count "https://example.com/1" = 0 := by
  refine ⟨?_, by decide, by decide, by decide, by decide⟩
  intro arg db hin
  have hin2 : arg.Url ∈ List.map (fun q => q.Url) db := hin
  refine ⟨?_, by decide⟩
  simp [refusingEnv, refusingCreatePost, hin2]

/-! ### C4: the count a cycle reports -/

/-- The one `Processed` line of a cycle that fetched a feed reports the number of items
of the fetched feed. -/
theorem scrapeFeeds_processedCounts {σ : Type} (env : Env σ) (w : World σ) (feed : Feed)
    (d1 d2 : σ) (rssFeed : RSSFeed)
    (hsel : env.GetNextFeedToFetch w.db = (.ok feed, d1))
    (hmark : env.MarkFeedFetched feed.ID d1 = (none, d2))
    (hfetch : (FetchFeed env feed.Url { db := d2, clock := w.clock }).1 = .ok rssFeed) :
    processedCounts (scrapeFeeds env w).2 = [rssFeed.Channel.Item.length] := by
  rw [scrapeFeeds_selected env w feed d1 d2 hsel hmark, hfetch]
  obtain ⟨_, _, f3, _⟩ := FetchFeed_observations env feed.Url { db := d2, clock := w.clock }
  obtain ⟨_, _, _, p4⟩ := processItems_observations env feed.ID rssFeed.Channel.Item
    (FetchFeed env feed.Url { db := d2, clock := w.clock }).2.1
  simp [processedCounts_append, processedCounts, f3, p4]

/-- The database and the inserts of a cycle that fetched a feed are those of its item
loop. -/
theorem scrapeFeeds_fetched {σ : Type} (env : Env σ) (w : World σ) (feed : Feed)
    (d1 d2 : σ) (rssFeed : RSSFeed)
    (hsel : env.GetNextFeedToFetch w.db = (.ok feed, d1))
    (hmark : env.MarkFeedFetched feed.ID d1 = (none, d2))
    (hfetch : (FetchFeed env feed.Url { db := d2, clock := w.clock }).1 = .ok rssFeed) :
    (scrapeFeeds env w).1 =
      (processItems env feed.ID rssFeed.Channel.Item
        (FetchFeed env feed.Url { db := d2, clock := w.clock }).2.1).1 ∧
    insertsOf (scrapeFeeds env w).2 =
      insertsOf (processItems env feed.ID rssFeed.Channel.Item
        (FetchFeed env feed.Url { db := d2, clock := w.clock }).2.1).2 := by
  rw [scrapeFeeds_selected env w feed d1 d2 hsel hmark, hfetch]
  obtain ⟨f1, _, _, _⟩ := FetchFeed_observations env feed.Url { db := d2, clock := w.clock }
  simp [insertsOf_append, insertsOf, f1]

/-- C4, as the code has it: the count a poll cycle reports is the number of items of the
fetched feed, stored or not.  Polling a feed with N items twice in a row with unchanged
content reports N on the first pass and N again on the second, against every store, and
each pass attempts N inserts.  If moreover the store is URL-unique in the sense of
`UrlUniqueStore` (a present URL is refused and changes nothing, a new URL is accepted and
appended, the feed queries leave the posts alone) and the N items have pairwise distinct
URLs none of which is stored before the first pass, then the first pass appends exactly
the N rows of its inserts and the second pass leaves the posts unchanged. -/
theorem scrapeFeeds_reports_item_count {σ : Type} (env : Env σ) (w : World σ)
    (feed : Feed) (d1 d2 d3 d4 : σ) (rssFeed : RSSFeed)
    (hsel1 : env.GetNextFeedToFetch w.db = (.ok feed, d1))
    (hmark1 : env.MarkFeedFetched feed.ID d1 = (none, d2))
    (hfetch1 : (FetchFeed env feed.Url { db := d2, clock := w.clock }).1 = .ok rssFeed)
    (hsel2 : env.GetNextFeedToFetch (scrapeFeeds env w).1.db = (.ok feed, d3))
    (hmark2 : env.MarkFeedFetched feed.ID d3 = (none, d4))
    (hfetch2 : (FetchFeed env feed.Url
      { db := d4, clock := (scrapeFeeds env w).1.clock }).1 = .ok rssFeed) :
    processedCounts (scrapeFeeds env w).2 = [rssFeed.Channel.Item.length] ∧
    processedCounts (scrapeFeeds env (scrapeFeeds env w).1).2 =
      [rssFeed.Channel.Item.length] ∧
    (insertsOf (scrapeFeeds env w).2).length = rssFeed.Channel.Item.length ∧
    (insertsOf (scrapeFeeds env (scrapeFeeds env w).1).2).length =
      rssFeed.Channel.Item.length ∧
    ∀ rows : σ → List CreatePostParams, UrlUniqueStore env rows →
      (rssFeed.Channel.Item.map fun it => it.Link).Nodup →
      (∀ it ∈ rssFeed.Channel.Item, it.Link ∉ urlsOf (rows w.db)) →
      rows (scrapeFeeds env w).1.db = rows w.db ++ insertsOf (scrapeFeeds env w).2 ∧
        rows (scrapeFeeds env (scrapeFeeds env w).1).1.db =
          rows (scrapeFeeds env w).1.db := by
  have hmap := scrapeFeeds_inserts env w feed d1 d2 rssFeed hsel1 hmark1 hfetch1
  have hmap2 := scrapeFeeds_inserts env (scrapeFeeds env w).1 feed d3 d4 rssFeed hsel2 hmark2
    hfetch2
  refine ⟨scrapeFeeds_processedCounts env w feed d1 d2 rssFeed hsel1 hmark1 hfetch1,
    scrapeFeeds_processedCounts env (scrapeFeeds env w).1 feed d3 d4 rssFeed hsel2 hmark2
      hfetch2, ?_, ?_, ?_⟩
  · have := congrArg List.length hmap
    simpa using this
  · have := congrArg List.length hmap2
    simpa using this
  intro rows hstore hdistinct hfresh
  have hd1 : rows d1 = rows w.db := by
    have := hstore.next_rows w.db
    rw [hsel1] at this
    exact this
  have hd2 : rows d2 = rows w.db := by
    have := hstore.mark_rows feed.ID d1
    rw [hmark1] at this
    rw [← hd1]
    exact this
  have hd3 : rows d3 = rows (scrapeFeeds env w).1.db := by
    have := hstore.next_rows (scrapeFeeds env w).1.db
    rw [hsel2] at this
    exact this
  have hd4 : rows d4 = rows (scrapeFeeds env w).1.db := by
    have := hstore.mark_rows feed.ID d3
    rw [hmark2] at this
    rw [← hd3]
    exact this
  obtain ⟨hw1, hi1⟩ := scrapeFeeds_fetched env w feed d1 d2 rssFeed hsel1 hmark1 hfetch1
  obtain ⟨hw2, _⟩ := scrapeFeeds_fetched env (scrapeFeeds env w).1 feed d3 d4 rssFeed
    hsel2 hmark2 hfetch2
  have hf1 := FetchFeed_db env feed.Url { db := d2, clock := w.clock }
  have hf2 := FetchFeed_db env feed.Url { db := d4, clock := (scrapeFeeds env w).1.clock }
  have hrows1 : rows (scrapeFeeds env w).1.db = rows w.db ++ insertsOf (scrapeFeeds env w).2 := by
    have h := processItems_all_new env rows hstore feed.ID rssFeed.Channel.Item
      (FetchFeed env feed.Url { db := d2, clock := w.clock }).2.1 hdistinct (by
        intro it hit
        rw [hf1]
        simp only [hd2]
        exact hfresh it hit)
    rw [hf1] at h
    simp only [hd2] at h
    rw [hw1, hi1]
    exact h
  refine ⟨hrows1, ?_⟩
  have hpresent : ∀ it ∈ rssFeed.Channel.Item, it.Link ∈ urlsOf (rows
      (FetchFeed env feed.Url { db := d4, clock := (scrapeFeeds env w).1.clock }).2.1.db) := by
    intro it hit
    rw [hf2]
    simp only [hd4]
    rw [hrows1]
    have hmem : it.Link ∈ (insertsOf (scrapeFeeds env w).2).map (fun p => p.Url) := by
      have h2 := congrArg (List.map fun t : String × String × UUID => t.1) hmap
      simp only [List.map_map] at h2
      have h3 : it.Link ∈ List.map ((fun t : String × String × UUID => t.1) ∘
          fun it : RSSItem => (it.Link, it.Title, feed.ID)) rssFeed.Channel.Item :=
        List.mem_map_of_mem _ hit
      rw [← h2] at h3
      simpa [Function.comp_def] using h3
    simp only [urlsOf, List.map_append, List.mem_append]
    exact Or.inr hmem
  have h := processItems_all_present env rows hstore feed.ID rssFeed.Channel.Item
    (FetchFeed env feed.Url { db := d4, clock := (scrapeFeeds env w).1.clock }).2.1 hpresent
  rw [hw2, h, hf2]
  exact hd4

/-- C4 witness: two passes over the sample feed of two items, whose URLs are distinct
and not stored in the empty sample world. -/
theorem scrapeFeeds_reports_item_count_witness :
    ((sampleEnv 200).GetNextFeedToFetch sampleWorld.db = (.ok sampleFeed, []) ∧
      (sampleEnv 200).MarkFeedFetched sampleFeed.ID [] = (none, []) ∧
      (FetchFeed (sampleEnv 200) sampleFeed.Url { db := [], clock := sampleWorld.clock }).1 =
        .ok (decodeHTML (sampleEnv 200) sampleRSS) ∧
      (FetchFeed (sampleEnv 200) sampleFeed.Url
        { db := (scrapeFeeds (sampleEnv 200) sampleWorld).1.db,
          clock := (scrapeFeeds (sampleEnv 200) sampleWorld).1.clock }).1 =
        .ok (decodeHTML (sampleEnv 200) sampleRSS) ∧
      UrlUniqueStore (sampleEnv 200) id ∧
      ((decodeHTML (sampleEnv 200) sampleRSS).Channel.Item.map fun it => it.Link).Nodup ∧
      (decodeHTML (sampleEnv 200) sampleRSS).Channel.Item.length = 2) ∧
    processedCounts (scrapeFeeds (sampleEnv 200) sampleWorld).2 = [2] ∧
    processedCounts
      (scrapeFeeds (sampleEnv 200) (scrapeFeeds (sampleEnv 200) sampleWorld).1).2 = [2] ∧
    id (scrapeFeeds (sampleEnv 200) sampleWorld).1.db =
      id sampleWorld.db ++ insertsOf (scrapeFeeds (sampleEnv 200) sampleWorld).2 ∧
    id (scrapeFeeds (sampleEnv 200) (scrapeFeeds (sampleEnv 200) sampleWorld).1).1.db =
      id (scrapeFeeds (sampleEnv 200) sampleWorld).1.db :=
  ⟨⟨rfl, rfl, rfl, rfl, sampleEnv_urlUnique 200, by decide, rfl⟩,
    (scrapeFeeds_reports_item_count (sampleEnv 200) sampleWorld
      sampleFeed [] [] (scrapeFeeds (sampleEnv 200) sampleWorld).1.db
      (scrapeFeeds (sampleEnv 200) sampleWorld).1.db (decodeHTML (sampleEnv 200) sampleRSS)
      rfl rfl rfl rfl rfl rfl).1,
    (scrapeFeeds_reports_item_count (sampleEnv 200) sampleWorld
      sampleFeed [] [] (scrapeFeeds (sampleEnv 200) sampleWorld).1.db
      (scrapeFeeds (sampleEnv 200) sampleWorld).1.db (decodeHTML (sampleEnv 200) sampleRSS)
      rfl rfl rfl rfl rfl rfl).2.1,
    (scrapeFeeds_reports_item_count (sampleEnv 200) sampleWorld
      sampleFeed [] [] (scrapeFeeds (sampleEnv 200) sampleWorld).1.db
      (scrapeFeeds (sampleEnv 200) sampleWorld).1.db (decodeHTML (sampleEnv 200) sampleRSS)
      rfl rfl rfl rfl rfl rfl).2.2.2.2 id (sampleEnv_urlUnique 200) (by decide) (by decide)⟩

/-- C4 counterexample: the sample store is URL-unique and the sample feed has two items
of distinct URLs; the first pass stores both and reports 2; the second pass, on the
unchanged feed, stores nothing (the posts are the same two rows) and reports 2, not 0. -/
theorem scrapeFeeds_second_pass_reports_all :
    (scrapeFeeds (sampleEnv 200) sampleWorld).1.db.length = 2 ∧
    processedCounts (scrapeFeeds (sampleEnv 200) sampleWorld).2 = [2] ∧
    (scrapeFeeds (sampleEnv 200) (scrapeFeeds (sampleEnv 200) sampleWorld).1).1.db =
      (scrapeFeeds (sampleEnv 200) sampleWorld).1.db ∧
    processedCounts
      (scrapeFeeds (sampleEnv 200) (scrapeFeeds (sampleEnv 200) sampleWorld).1).2 = [2] ∧
    processedCounts
      (scrapeFeeds (sampleEnv 200) (scrapeFeeds (sampleEnv 200) sampleWorld).1).2 ≠ [0] := by
  refine ⟨by decide, by decide, by decide, by decide, by decide⟩

/-! ### C11: non-positive intervals -/

/-- Whatever duration the parser accepts is handed to `time.NewTicker` as it is: when it
is zero or negative (as for "0s" or "-5s"), the ticker construction panics after the two
banner lines, and no poll cycle runs. -/
theorem HandlerAgg_nonpositive_interval {σ : Type} (env : Env σ) (cmd : Command)
    (fuel : Nat) (w : World σ) (arg0 : String) (rest : List String) (d : Duration)
    (hargs : cmd.Args = arg0 :: rest) (hparse : env.timeParseDuration arg0 = .ok d)
    (hd : d ≤ 0) :
    HandlerAgg env cmd fuel w =
      (.panicked "non-positive interval for NewTicker", w,
        [.print (.collectingEvery d), .print .pressCtrlC]) := by
  simp only [HandlerAgg, hargs, hparse, hd, if_true]

/-- C11, at the failing input `agg 0s`: the duration parser accepts "0s" as the zero
duration, `HandlerAgg` neither rejects nor replaces it, and the ticker construction is
reached with an interval that is not strictly positive and panics, for every number of
loop iterations allowed; the handler does not return an error and no poll cycle runs. -/
theorem HandlerAgg_zero_interval_panics (fuel : Nat) :
    (sampleEnv 200).timeParseDuration "0s" = .ok 0 ∧
    HandlerAgg (sampleEnv 200) { Name := "agg", Args := ["0s"] } fuel sampleWorld =
      (.panicked "non-positive interval for NewTicker", sampleWorld,
        [.print (.collectingEvery 0), .print .pressCtrlC]) ∧
    (∀ err, (HandlerAgg (sampleEnv 200) { Name := "agg", Args := ["0s"] } fuel sampleWorld).1 ≠
      .returned err) :=
  ⟨rfl, rfl, fun _ h => by cases h⟩

end RssAggregator
